import Mathlib

/-!
# Verification of the NodeCast TV Source Synchronization & Media Proxy Engine

Shallow embedding of `src/server/services/syncService.js` and
`src/server/routes/proxy.js`.  JavaScript strings are modelled as Lean
`String`s (operated on through their character lists), JavaScript dynamic
values (the vendor payload fields) as the inductive `Value`, and the SQLite
tables as in-memory lists of row structures, with the `INSERT ... ON CONFLICT`
statements modelled as keyed upserts.  All definitions are executable.
-/

namespace NodecastTV

/-- JavaScript runtime values as they appear in the vendor payload fields:
strings, (integral) numbers, `null` and `undefined`. -/
inductive Value where
  | str (s : String)
  | num (n : Int)
  | null
  | undef
deriving DecidableEq, Repr, Inhabited

/-- JavaScript `String(v)` / template-literal interpolation of a value. -/
def jsString : Value → String
  | .str s => s
  | .num n => toString n
  | .null => "null"
  | .undef => "undefined"

/-- JavaScript truthiness test (on the `Value` fragment we model). -/
def jsTruthy : Value → Bool
  | .str s => !(s == "")
  | .num n => !(n == 0)
  | .null => false
  | .undef => false

/-- JavaScript `a || b` on values. -/
def jsOr (a b : Value) : Value :=
  if jsTruthy a then a else b

/-- JavaScript whitespace (the ASCII fragment relevant to playlists):
tab, LF, VT, FF, CR and space. -/
def jsIsWs (c : Char) : Bool :=
  c.toNat == 9 || c.toNat == 10 || c.toNat == 11 || c.toNat == 12 ||
  c.toNat == 13 || c.toNat == 32

/-- `String.prototype.trim` (strip leading and trailing whitespace). -/
def jsTrim (s : String) : String :=
  ⟨((s.data.dropWhile jsIsWs).reverse.dropWhile jsIsWs).reverse⟩

/-- List-level prefix test. -/
def isPrefixL [DecidableEq α] : List α → List α → Bool
  | [], _ => true
  | _ :: _, [] => false
  | a :: as, b :: bs => a == b && isPrefixL as bs

/-- `String.prototype.startsWith`. -/
def jsStartsWith (s pre : String) : Bool :=
  isPrefixL pre.data s.data

/-- List-level substring test (used for `String.prototype.includes`). -/
def containsL [DecidableEq α] (needle : List α) : List α → Bool
  | [] => isPrefixL needle []
  | a :: as => isPrefixL needle (a :: as) || containsL needle as

/-- `String.prototype.includes`. -/
def jsIncludes (s needle : String) : Bool :=
  containsL needle.data s.data

end NodecastTV

namespace NodecastTV

/-! ## `encodeURIComponent`

Characters left intact are `A-Z a-z 0-9 - _ . ! ~ * ( )` and the apostrophe
(code 39); every other character is percent-escaped byte-wise over its UTF-8
encoding, with uppercase hexadecimal digits, exactly as JavaScript's
`encodeURIComponent` does. -/

/-- Is `c` left unescaped by `encodeURIComponent`? -/
def isUriUnreserved (c : Char) : Bool :=
  let n := c.toNat
  (65 ≤ n && n ≤ 90) || (97 ≤ n && n ≤ 122) || (48 ≤ n && n ≤ 57) ||
  n == 45 || n == 95 || n == 46 || n == 33 || n == 126 || n == 42 ||
  n == 39 || n == 40 || n == 41

/-- Uppercase hexadecimal digit for `n < 16`. -/
def hexDigit (n : Nat) : Char :=
  if n < 10 then Char.ofNat (48 + n) else Char.ofNat (55 + n)

/-- UTF-8 encoding of a Unicode scalar value, as a byte list. -/
def utf8Bytes (n : Nat) : List Nat :=
  if n < 128 then [n]
  else if n < 2048 then [192 + n / 64, 128 + n % 64]
  else if n < 65536 then [224 + n / 4096, 128 + (n / 64) % 64, 128 + n % 64]
  else [240 + n / 262144, 128 + (n / 4096) % 64, 128 + (n / 64) % 64, 128 + n % 64]

/-- Percent-escape of a single byte: `%XY` with uppercase hex digits. -/
def percentByte (b : Nat) : List Char :=
  [Char.ofNat 37, hexDigit (b / 16), hexDigit (b % 16)]

/-- JavaScript `encodeURIComponent`. -/
def encodeURIComponent (s : String) : String :=
  ⟨(s.data.map (fun c =>
      if isUriUnreserved c then [c]
      else ((utf8Bytes c.toNat).map percentByte).flatten)).flatten⟩


end NodecastTV

namespace NodecastTV

/-! ## Manifest rewriting (`rewriteM3u8` in `src/server/routes/proxy.js`)

`content.replace(/^(?!#)(.+)$/gm, ...)` rewrites every non-empty line that
does not start with `#`: the line is trimmed, prefixed with the manifest's
base directory (everything in the manifest URL up to and including the last
`/`) when it does not start with `http`, and replaced by
`baseUrl?url=` + `encodeURIComponent` of the resulting target. -/

/-- `m3u8Url.substring(0, m3u8Url.lastIndexOf('/') + 1)`: the manifest's own
base directory (empty when the URL has no slash). -/
def baseDirOf (m3u8Url : String) : String :=
  ⟨((m3u8Url.data.reverse.dropWhile (fun c => !(c == Char.ofNat 47)))).reverse⟩

/-- One line of the `replace` callback of `rewriteM3u8`: comment lines
(starting with `#`) and empty lines are not matched by the regex and stay
unchanged; every other line is rewritten to point through the proxy. -/
def rewriteLine (m3u8Base baseUrl line : String) : String :=
  if jsStartsWith line "#" || line == "" then line
  else
    let chunkUrl := jsTrim line
    let chunkUrl := if jsStartsWith chunkUrl "http" then chunkUrl else m3u8Base ++ chunkUrl
    baseUrl ++ "?url=" ++ encodeURIComponent chunkUrl

/-- Split a string at LF characters (the line structure seen by the `m` flag
of the rewrite regex). -/
def splitLinesL : List Char → List (List Char)
  | [] => [[]]
  | c :: cs =>
    let rest := splitLinesL cs
    if c.toNat == 10 then [] :: rest
    else (c :: rest.headD []) :: rest.tail

/-- Join lines back with LF. -/
def joinLinesL : List (List Char) → List Char
  | [] => []
  | [l] => l
  | l :: ls => l ++ Char.ofNat 10 :: joinLinesL ls

/-- The body of `rewriteM3u8` applied to fetched manifest text: rewrite every
line of `content` against the manifest URL's base directory.  (The fetch
itself is abstracted: a failed fetch makes `rewriteM3u8` return `null`,
modelled at the call site.) -/
def rewriteM3u8Content (m3u8Url baseUrl content : String) : String :=
  ⟨joinLinesL ((splitLinesL content.data).map
      (fun l => (rewriteLine (baseDirOf m3u8Url) baseUrl ⟨l⟩).data))⟩


end NodecastTV

namespace NodecastTV

/-! ## Keyed upsert (`INSERT ... ON CONFLICT(<key>) DO UPDATE`)

A table is a list of rows in insertion order.  An upsert with key `key` and
update clause `merge` replaces the matching row when one exists and appends
the new row otherwise. -/

/-- `INSERT ... ON CONFLICT DO UPDATE` against an in-memory table. `merge new
old` is the `DO UPDATE SET` clause (which columns it copies from `excluded`
depends on the statement). -/
def upsertBy {ρ κ : Type} [DecidableEq κ] (key : ρ → κ) (merge : ρ → ρ → ρ)
    (row : ρ) (tbl : List ρ) : List ρ :=
  if tbl.any (fun r => decide (key r = key row)) then
    tbl.map (fun r => if key r = key row then merge row r else r)
  else tbl ++ [row]

/-! ## Batching (`BATCH_SIZE = 500`)

`for (let i = 0; i < items.length; i += BATCH_SIZE) insertBatch(items.slice(i, i + BATCH_SIZE))`
splits the input into consecutive chunks of at most 500 records; each chunk
is executed inside one `db.transaction`, with an `await setImmediate` yield
between chunks. -/

/-- Fuel-driven chunking; `fuel` only bounds the recursion and any
`fuel ≥ l.length` gives the same result (`batchesGo_congr`). -/
def batchesGo {α : Type} : Nat → List α → List (List α)
  | 0, _ => []
  | fuel + 1, l => if l.isEmpty then [] else l.take 500 :: batchesGo fuel (l.drop 500)

/-- The chunks `items.slice(i, i + 500)` visited by the batch loop, in order. -/
def batches {α : Type} (l : List α) : List (List α) :=
  batchesGo l.length l

theorem batchesGo_congr {α : Type} :
    ∀ (n m : Nat) (l : List α), l.length ≤ n → l.length ≤ m →
      batchesGo n l = batchesGo m l := by
  intro n
  induction n with
  | zero =>
    intro m l hn _
    have hl : l = [] := List.length_eq_zero.mp (Nat.le_zero.mp hn)
    subst hl
    cases m <;> simp [batchesGo]
  | succ n ih =>
    intro m l hn hm
    cases m with
    | zero =>
      have hl : l = [] := List.length_eq_zero.mp (Nat.le_zero.mp hm)
      subst hl
      simp [batchesGo]
    | succ m =>
      by_cases hl : l = []
      · subst hl; simp [batchesGo]
      · have hne : l.isEmpty = false := by simp [List.isEmpty_iff, hl]
        have hlen : 0 < l.length := List.length_pos.mpr hl
        have hd : (l.drop 500).length ≤ n := by
          have := List.length_drop 500 l
          omega
        have hd' : (l.drop 500).length ≤ m := by
          have := List.length_drop 500 l
          omega
        simp [batchesGo, hne, ih m (l.drop 500) hd hd']

theorem batches_nil {α : Type} : batches ([] : List α) = [] := rfl

theorem batches_cons {α : Type} (l : List α) (h : l ≠ []) :
    batches l = l.take 500 :: batches (l.drop 500) := by
  have hlen : 0 < l.length := List.length_pos.mpr h
  have hne : l.isEmpty = false := by simp [List.isEmpty_iff, h]
  obtain ⟨n, hn⟩ : ∃ n, l.length = n + 1 := ⟨l.length - 1, by omega⟩
  unfold batches
  rw [hn]
  simp only [batchesGo, hne]
  simp only [Bool.false_eq_true, if_false]
  congr 1
  apply batchesGo_congr
  · have := List.length_drop 500 l; omega
  · exact Nat.le_refl _

theorem batches_drop_lt {α : Type} (l : List α) (h : l ≠ []) :
    (l.drop 500).length < l.length := by
  have hlen : 0 < l.length := List.length_pos.mpr h
  have := List.length_drop 500 l
  omega

/-- Every chunk produced by the batch loop has at most `BATCH_SIZE = 500`
elements. -/
theorem batches_size_le {α : Type} (l : List α) :
    ∀ c ∈ batches l, c.length ≤ 500 := by
  have main : ∀ (n : Nat) (l : List α), l.length ≤ n → ∀ c ∈ batches l, c.length ≤ 500 := by
    intro n
    induction n with
    | zero =>
      intro l hn c hc
      have hl : l = [] := List.length_eq_zero.mp (Nat.le_zero.mp hn)
      subst hl; simp [batches_nil] at hc
    | succ n ih =>
      intro l hn c hc
      by_cases hl : l = []
      · subst hl; simp [batches_nil] at hc
      · rw [batches_cons l hl] at hc
        rcases List.mem_cons.mp hc with hc | hc
        · subst hc; simp [List.length_take_le 500 l]
        · have hlt := batches_drop_lt l hl
          exact ih (l.drop 500) (by omega) c hc
  exact main l.length l (Nat.le_refl _)

/-- Concatenating the chunks gives back the input: no record is dropped or
duplicated by the chunking itself. -/
theorem batches_flatten {α : Type} (l : List α) : (batches l).flatten = l := by
  have main : ∀ (n : Nat) (l : List α), l.length ≤ n → (batches l).flatten = l := by
    intro n
    induction n with
    | zero =>
      intro l hn
      have hl : l = [] := List.length_eq_zero.mp (Nat.le_zero.mp hn)
      subst hl; simp [batches_nil]
    | succ n ih =>
      intro l hn
      by_cases hl : l = []
      · subst hl; simp [batches_nil]
      · rw [batches_cons l hl]
        have hlt := batches_drop_lt l hl
        simp [ih (l.drop 500) (by omega), List.take_append_drop]
  exact main l.length l (Nat.le_refl _)

/-- Number of chunks: `⌈length / 500⌉`. -/
theorem batches_length {α : Type} (l : List α) :
    (batches l).length = (l.length + 499) / 500 := by
  have main : ∀ (n : Nat) (l : List α), l.length ≤ n →
      (batches l).length = (l.length + 499) / 500 := by
    intro n
    induction n with
    | zero =>
      intro l hn
      have hl : l = [] := List.length_eq_zero.mp (Nat.le_zero.mp hn)
      subst hl; simp [batches_nil]
    | succ n ih =>
      intro l hn
      by_cases hl : l = []
      · subst hl; simp [batches_nil]
      · rw [batches_cons l hl]
        have hlt := batches_drop_lt l hl
        have hlen : 0 < l.length := List.length_pos.mpr hl
        have := ih (l.drop 500) (by omega)
        have hd : (l.drop 500).length = l.length - 500 := List.length_drop 500 l
        simp only [List.length_cons, this, hd]
        omega
  exact main l.length l (Nat.le_refl _)

/-- Running the chunked loop is the same fold as running the records one by
one (each chunk's transaction just iterates its statement). -/
theorem batches_foldl {α β : Type} (f : β → α → β) (l : List α) (init : β) :
    (batches l).foldl (fun acc chunk => chunk.foldl f acc) init = l.foldl f init := by
  have main : ∀ (n : Nat) (l : List α), l.length ≤ n → ∀ (init : β),
      (batches l).foldl (fun acc chunk => chunk.foldl f acc) init = l.foldl f init := by
    intro n
    induction n with
    | zero =>
      intro l hn init
      have hl : l = [] := List.length_eq_zero.mp (Nat.le_zero.mp hn)
      subst hl; simp [batches_nil]
    | succ n ih =>
      intro l hn init
      by_cases hl : l = []
      · subst hl; simp [batches_nil]
      · rw [batches_cons l hl]
        have hlt := batches_drop_lt l hl
        simp only [List.foldl_cons]
        rw [ih (l.drop 500) (by omega)]
        rw [← List.foldl_append]
        simp [List.take_append_drop]
  exact main l.length l (Nat.le_refl _) init

end NodecastTV

namespace NodecastTV

/-- Folding fresh upserts (keys pairwise distinct and absent from the table)
just appends the rows in order. -/
theorem foldl_upsertBy_of_fresh {ρ κ : Type} [DecidableEq κ]
    (key : ρ → κ) (merge : ρ → ρ → ρ) :
    ∀ (rows tbl : List ρ),
      (∀ r ∈ rows, ∀ t ∈ tbl, key r ≠ key t) →
      List.Pairwise (fun a b => key a ≠ key b) rows →
      rows.foldl (fun t r => upsertBy key merge r t) tbl = tbl ++ rows := by
  intro rows
  induction rows with
  | nil => intro tbl _ _; simp
  | cons r rest ih =>
    intro tbl hfresh hpair
    have hany : tbl.any (fun t => decide (key t = key r)) = false := by
      rw [List.any_eq_false]
      intro t ht
      have := hfresh r (by simp) t ht
      simp [this.symm]
    have hup : upsertBy key merge r tbl = tbl ++ [r] := by
      simp [upsertBy, hany]
    simp only [List.foldl_cons, hup]
    rw [ih (tbl ++ [r])]
    · simp
    · intro x hx t ht
      rcases List.mem_append.mp ht with ht | ht
      · exact hfresh x (by simp [hx]) t ht
      · have : t = r := by simpa using ht
        subst this
        exact fun h => (List.pairwise_cons.mp hpair).1 x hx h.symm
    · exact (List.pairwise_cons.mp hpair).2

end NodecastTV

namespace NodecastTV

/-! ## Data model: raw upstream payloads and table rows -/

/-- A raw Xtream/M3U catalog record (`item` in `saveStreams`): the duck-typed
fields the writer reads, each `undefined` when absent. -/
structure RawItem where
  stream_id : Value := .undef
  series_id : Value := .undef
  name : Value := .undef
  category_id : Value := .undef
  stream_icon : Value := .undef
  cover : Value := .undef
  container_extension : Value := .undef
  rating : Value := .undef
  releaseDate : Value := .undef
  added : Value := .undef
  last_modified : Value := .undef
  stream_url : Value := .undef
deriving DecidableEq, Repr, Inhabited

/-- A raw category record (`cat` in `saveCategories`). -/
structure RawCategory where
  category_id : Value := .undef
  category_name : Value := .undef
  parent_id : Value := .undef
deriving DecidableEq, Repr, Inhabited

/-- An XMLTV channel record as produced by the EPG stream parser. -/
structure EpgChannel where
  id : String
  name : String
  icon : Option String := none
deriving DecidableEq, Repr, Inhabited

/-- An XMLTV programme record as produced by the EPG stream parser
(`start`/`stop` as epoch-millisecond date values when present). -/
structure Programme where
  channelId : String
  start : Option Int := none
  stop : Option Int := none
  title : String
  description : Option String := none
  desc : Option String := none
deriving DecidableEq, Repr, Inhabited

/-- Contents of a `data` column: `JSON.stringify` of the original record,
modelled as the record itself. -/
inductive RowData where
  | raw (item : RawItem)
  | chan (c : EpgChannel)
deriving DecidableEq, Repr, Inhabited

/-- A row of the `categories` table. -/
structure CategoryRow where
  id : String
  source_id : Nat
  category_id : String
  type : String
  name : Value
  parent_id : Value
  is_hidden : Bool := false
  data : RawCategory
deriving DecidableEq, Repr, Inhabited

/-- A row of the `playlist_items` table. -/
structure PlaylistItemRow where
  id : String
  source_id : Nat
  item_id : String
  type : String
  name : Value
  category_id : Value
  stream_icon : Value
  stream_url : Value
  container_extension : Value
  rating : Value
  year : Value
  added_at : Value
  is_hidden : Bool := false
  data : RowData
deriving DecidableEq, Repr, Inhabited

/-- A row of the `epg_programs` table (no unique key). -/
structure EpgProgramRow where
  channel_id : String
  source_id : Nat
  start_time : Int
  end_time : Int
  title : String
  description : Option String
  data : Programme
deriving DecidableEq, Repr, Inhabited

/-- The persistent store: the three tables the engine writes. -/
structure DbState where
  categories : List CategoryRow := []
  playlistItems : List PlaylistItemRow := []
  epgPrograms : List EpgProgramRow := []
deriving DecidableEq, Repr, Inhabited

end NodecastTV

namespace NodecastTV

/-! ## Batch persistence writer (`saveCategories`, `saveStreams`,
`syncEpgFromUrl` in `src/server/services/syncService.js`) -/

/-- The row built for one category record. -/
def categoryRowOf (sourceId : Nat) (type : String) (cat : RawCategory) : CategoryRow :=
  { id := toString sourceId ++ ":" ++ jsString cat.category_id
    source_id := sourceId
    category_id := jsString cat.category_id
    type := type
    name := cat.category_name
    parent_id := jsOr cat.parent_id .null
    data := cat }

/-- `ON CONFLICT(id) DO UPDATE SET name = excluded.name, data = excluded.data`. -/
def mergeCategoryRow (new old : CategoryRow) : CategoryRow :=
  { old with name := new.name, data := new.data }

/-- `SyncService.saveCategories`: chunked, keyed upsert of category rows. -/
def saveCategories (sourceId : Nat) (type : String) (categories : List RawCategory)
    (tbl : List CategoryRow) : List CategoryRow :=
  (batches categories).foldl
    (fun acc batch => batch.foldl
      (fun t cat => upsertBy CategoryRow.id mergeCategoryRow (categoryRowOf sourceId type cat) t) acc)
    tbl

/-- The type-dependent field mapping of `saveStreams` (`let itemId, name,
catId, icon, container; let rating = null, year = null, added = null;`
followed by the three `if (type === ...)` branches). -/
structure StreamFields where
  itemId : Value := .undef
  name : Value := .undef
  catId : Value := .undef
  icon : Value := .undef
  container : Value := .undef
  rating : Value := .null
  year : Value := .null
  added : Value := .null
deriving DecidableEq, Repr

/-- Field extraction by `type`; an unknown type leaves every field at its
initial value. -/
def mapStreamFields (type : String) (item : RawItem) : StreamFields :=
  if type == "live" then
    { itemId := item.stream_id, name := item.name, catId := item.category_id,
      icon := item.stream_icon, added := item.added }
  else if type == "movie" then
    { itemId := item.stream_id, name := item.name, catId := item.category_id,
      icon := item.stream_icon, container := item.container_extension,
      rating := item.rating, added := item.added }
  else if type == "series" then
    { itemId := item.series_id, name := item.name, catId := item.category_id,
      icon := item.cover, rating := item.rating, year := item.releaseDate,
      added := item.last_modified }
  else {}

/-- The row built for one catalog item: composite id
`` `${sourceId}:${itemId}` ``, `item_id` and `category_id` stringified with
`String(...)`, `stream_url` stored as `null`. -/
def streamRowOf (sourceId : Nat) (type : String) (item : RawItem) : PlaylistItemRow :=
  let f := mapStreamFields type item
  { id := toString sourceId ++ ":" ++ jsString f.itemId
    source_id := sourceId
    item_id := jsString f.itemId
    type := type
    name := f.name
    category_id := .str (jsString f.catId)
    stream_icon := f.icon
    stream_url := .null
    container_extension := f.container
    rating := f.rating
    year := f.year
    added_at := f.added
    data := .raw item }

/-- `ON CONFLICT(id) DO UPDATE SET name, category_id, stream_icon,
container_extension, data` (from `excluded`). -/
def mergeStreamRow (new old : PlaylistItemRow) : PlaylistItemRow :=
  { old with
    name := new.name
    category_id := new.category_id
    stream_icon := new.stream_icon
    container_extension := new.container_extension
    data := new.data }

/-- `SyncService.saveStreams`: chunked, keyed upsert of playlist-item rows. -/
def saveStreams (sourceId : Nat) (type : String) (items : List RawItem)
    (tbl : List PlaylistItemRow) : List PlaylistItemRow :=
  (batches items).foldl
    (fun acc batch => batch.foldl
      (fun t it => upsertBy PlaylistItemRow.id mergeStreamRow (streamRowOf sourceId type it) t) acc)
    tbl

/-- JavaScript `a || b` on nullable strings (`""` is falsy). -/
def jsOrStr : Option String → Option String → Option String
  | some s, b => if s == "" then b else some s
  | none, b => b

/-- The EPG-channel row written by `syncEpgFromUrl` into `playlist_items`
(`type = 'epg_channel'`, no URL, no category). -/
def epgChannelRowOf (sourceId : Nat) (ch : EpgChannel) : PlaylistItemRow :=
  { id := toString sourceId ++ ":" ++ ch.id
    source_id := sourceId
    item_id := ch.id
    type := "epg_channel"
    name := .str ch.name
    category_id := .null
    stream_icon := (match ch.icon with | some s => jsOr (.str s) .null | none => .null)
    stream_url := .null
    container_extension := .null
    rating := .null
    year := .null
    added_at := .null
    data := .chan ch }

/-- `ON CONFLICT(id) DO UPDATE SET name, stream_icon, data` for EPG channels. -/
def mergeEpgChannelRow (new old : PlaylistItemRow) : PlaylistItemRow :=
  { old with name := new.name, stream_icon := new.stream_icon, data := new.data }

/-- The programme row inserted by `syncEpgFromUrl`
(`p.start ? p.start.getTime() : 0`, `p.description || p.desc`). -/
def programRowOf (sourceId : Nat) (p : Programme) : EpgProgramRow :=
  { channel_id := p.channelId
    source_id := sourceId
    start_time := p.start.getD 0
    end_time := p.stop.getD 0
    title := p.title
    description := jsOrStr p.description p.desc
    data := p }

/-- `DELETE FROM epg_programs WHERE source_id = ?`. -/
def deleteEpgPrograms (sourceId : Nat) (tbl : List EpgProgramRow) : List EpgProgramRow :=
  tbl.filter (fun r => !(r.source_id == sourceId))

/-- `SyncService.syncEpgFromUrl` with the fetch-and-parse step abstracted to
its result `(channels, programmes)`: upsert the EPG channels into
`playlist_items`, then delete all of the source's old programmes and insert
the new set. -/
def syncEpgFromUrl (sourceId : Nat) (channels : List EpgChannel)
    (programmes : List Programme) (db : DbState) : DbState :=
  let items := channels.foldl
    (fun t ch => upsertBy PlaylistItemRow.id mergeEpgChannelRow (epgChannelRowOf sourceId ch) t)
    db.playlistItems
  let progs := deleteEpgPrograms sourceId db.epgPrograms ++ programmes.map (programRowOf sourceId)
  { db with playlistItems := items, epgPrograms := progs }

end NodecastTV

namespace NodecastTV

/-! ## Read paths (`src/server/routes/proxy.js`) -/

/-- An element of the JSON array returned by `getStreamsFromDb`: the parsed
`data` payload spread first, then the local columns overriding the critical
fields. -/
structure StreamResult where
  data : RowData
  stream_id : String
  series_id : Option String
  name : Value
  stream_icon : Value
  cover : Value
  added : Value
  rating : Value
  container_extension : Value
  category_id : Value
deriving DecidableEq, Repr

/-- `getStreamsFromDb(sourceId, type, categoryId, includeHidden)`: select the
source's rows of the given type (optionally narrowed to a category, hiding
hidden rows unless asked), mapped to the Xtream-shaped result objects. -/
def getStreamsFromDb (sourceId : Nat) (type : String) (categoryId : Option String)
    (includeHidden : Bool) (tbl : List PlaylistItemRow) : List StreamResult :=
  let rows := tbl.filter (fun r =>
    r.source_id == sourceId && r.type == type
    && (includeHidden || !r.is_hidden)
    && (match categoryId with
        | some c => if c == "" then true else r.category_id == Value.str c
        | none => true))
  rows.map (fun item =>
    { data := item.data
      stream_id := item.item_id
      series_id := if type == "series" then some item.item_id else none
      name := item.name
      stream_icon := item.stream_icon
      cover := item.stream_icon
      added := item.added_at
      rating := item.rating
      container_extension := item.container_extension
      category_id := item.category_id })

/-- The window and filter of `GET /epg/:sourceId`: programmes of the source
overlapping `[now - 24h, now + 24h]`
(`end_time > windowStart AND start_time < windowEnd`).  The route then maps
each row to `{channelId, start, stop, title, desc}`, a per-row reformatting
that cannot distinguish equal row lists. -/
def epgWindowQuery (now : Int) (sourceId : Nat) (tbl : List EpgProgramRow) :
    List EpgProgramRow :=
  tbl.filter (fun r =>
    r.source_id == sourceId
    && decide (r.end_time > now - 86400000)
    && decide (r.start_time < now + 86400000))

end NodecastTV

namespace NodecastTV

/-! ## Helper lemmas about the writers -/

/-- The chunked double fold of `saveStreams` equals the record-by-record fold. -/
theorem saveStreams_eq_foldl (sourceId : Nat) (type : String) (items : List RawItem)
    (tbl : List PlaylistItemRow) :
    saveStreams sourceId type items tbl
      = items.foldl
          (fun t it => upsertBy PlaylistItemRow.id mergeStreamRow (streamRowOf sourceId type it) t)
          tbl :=
  batches_foldl _ items tbl

/-- Saving records with pairwise-distinct composite ids into an empty table
yields exactly their rows, in order. -/
theorem saveStreams_empty_of_distinct (sourceId : Nat) (type : String) (items : List RawItem)
    (hids : (items.map (streamRowOf sourceId type)).Pairwise (fun a b => a.id ≠ b.id)) :
    saveStreams sourceId type items [] = items.map (streamRowOf sourceId type) := by
  rw [saveStreams_eq_foldl]
  have hfold :
      items.foldl
          (fun t it => upsertBy PlaylistItemRow.id mergeStreamRow (streamRowOf sourceId type it) t)
          ([] : List PlaylistItemRow)
        = (items.map (streamRowOf sourceId type)).foldl
            (fun t r => upsertBy PlaylistItemRow.id mergeStreamRow r t) [] := by
    rw [List.foldl_map]
  rw [hfold]
  rw [foldl_upsertBy_of_fresh PlaylistItemRow.id mergeStreamRow
        (items.map (streamRowOf sourceId type)) []]
  · simp
  · intro r _ t ht; simp at ht
  · exact hids

end NodecastTV

namespace NodecastTV

/-- C2.  EPG ingestion is idempotent with respect to the ±24h window query:
re-running `syncEpgFromUrl` with the same parsed input leaves the
`epg_programs` table unchanged, hence the window query returns the same
program set; after one run the source's rows are exactly the new programme
set (old programmes having been deleted before the insert), with no
duplicates beyond those of the input. -/
theorem c2_epg_ingest_idempotent_window
    (sourceId : Nat) (channels : List EpgChannel) (programmes : List Programme)
    (db : DbState) (now : Int) :
    (syncEpgFromUrl sourceId channels programmes
        (syncEpgFromUrl sourceId channels programmes db)).epgPrograms
      = (syncEpgFromUrl sourceId channels programmes db).epgPrograms
    ∧ epgWindowQuery now sourceId
        (syncEpgFromUrl sourceId channels programmes
          (syncEpgFromUrl sourceId channels programmes db)).epgPrograms
      = epgWindowQuery now sourceId
          (syncEpgFromUrl sourceId channels programmes db).epgPrograms
    ∧ (syncEpgFromUrl sourceId channels programmes db).epgPrograms.filter
        (fun r => r.source_id == sourceId)
      = programmes.map (programRowOf sourceId)
    ∧ (programmes.Nodup →
        ((syncEpgFromUrl sourceId channels programmes db).epgPrograms.filter
          (fun r => r.source_id == sourceId)).Nodup) := by
  have hdel : ∀ t : List EpgProgramRow,
      deleteEpgPrograms sourceId
          (deleteEpgPrograms sourceId t ++ programmes.map (programRowOf sourceId))
        = deleteEpgPrograms sourceId t := by
    intro t
    unfold deleteEpgPrograms
    rw [List.filter_append]
    have h1 : (programmes.map (programRowOf sourceId)).filter
        (fun r => !(r.source_id == sourceId)) = [] := by
      simp [List.filter_eq_nil_iff, programRowOf]
    have h2 : (t.filter (fun r => !(r.source_id == sourceId))).filter
        (fun r => !(r.source_id == sourceId))
        = t.filter (fun r => !(r.source_id == sourceId)) := by
      simp [List.filter_filter]
    rw [h1, h2, List.append_nil]
  have hfil : (deleteEpgPrograms sourceId db.epgPrograms
        ++ programmes.map (programRowOf sourceId)).filter (fun r => r.source_id == sourceId)
      = programmes.map (programRowOf sourceId) := by
    rw [List.filter_append]
    have h1 : (deleteEpgPrograms sourceId db.epgPrograms).filter
        (fun r => r.source_id == sourceId) = [] := by
      simp [deleteEpgPrograms, List.filter_filter]
    have h2 : (programmes.map (programRowOf sourceId)).filter
        (fun r => r.source_id == sourceId)
        = programmes.map (programRowOf sourceId) := by
      rw [List.filter_eq_self]
      simp [programRowOf]
    rw [h1, h2, List.nil_append]
  have hmain : (syncEpgFromUrl sourceId channels programmes
        (syncEpgFromUrl sourceId channels programmes db)).epgPrograms
      = (syncEpgFromUrl sourceId channels programmes db).epgPrograms := by
    simp only [syncEpgFromUrl]
    rw [hdel]
  refine ⟨hmain, by rw [hmain], ?_, ?_⟩
  · simpa only [syncEpgFromUrl] using hfil
  · intro hnd
    simp only [syncEpgFromUrl]
    rw [hfil]
    exact hnd.map (fun p q h => congrArg EpgProgramRow.data h)

/-- C3.  The batch writer splits its input into consecutive chunks of at most
`BATCH_SIZE = 500` records (`⌈n/500⌉` chunks, three for 1,200 records), drops
or duplicates nothing in the chunking, and — for records with pairwise
distinct composite ids written into an empty store — ends with exactly one
row per input record, all carrying the requested source and type. -/
theorem c3_batch_writer_chunks_and_rowcount
    (sourceId : Nat) (type : String) (items : List RawItem)
    (hids : (items.map (streamRowOf sourceId type)).Pairwise (fun a b => a.id ≠ b.id)) :
    (batches items).flatten = items
    ∧ (∀ c ∈ batches items, c.length ≤ 500)
    ∧ (batches items).length = (items.length + 499) / 500
    ∧ (items.length = 1200 → (batches items).length = 3)
    ∧ saveStreams sourceId type items [] = items.map (streamRowOf sourceId type)
    ∧ (saveStreams sourceId type items []).length = items.length
    ∧ (∀ r ∈ saveStreams sourceId type items [], r.source_id = sourceId ∧ r.type = type) := by
  have hsave := saveStreams_empty_of_distinct sourceId type items hids
  refine ⟨batches_flatten items, batches_size_le items, batches_length items, ?_, hsave, ?_, ?_⟩
  · intro h1200
    rw [batches_length items, h1200]
  · rw [hsave, List.length_map]
  · intro r hr
    rw [hsave] at hr
    rcases List.mem_map.mp hr with ⟨it, _, rfl⟩
    exact ⟨rfl, rfl⟩

theorem c3_batch_writer_chunks_and_rowcount_witness :
    ((([{ stream_id := .num 1 }, { stream_id := .num 2 }] : List RawItem).map
        (streamRowOf 7 "live")).Pairwise (fun a b => a.id ≠ b.id))
    ∧ (saveStreams 7 "live" [{ stream_id := .num 1 }, { stream_id := .num 2 }] []).length = 2 := by
  refine ⟨by decide, ?_⟩
  have h := c3_batch_writer_chunks_and_rowcount 7 "live"
    [{ stream_id := .num 1 }, { stream_id := .num 2 }] (by decide)
  simpa using h.2.2.2.2.2.1

end NodecastTV

namespace NodecastTV

/-! ## Sync orchestrator (`SyncService` in `src/server/services/syncService.js`)

`activeSyncs` is the module-level in-memory `Set` of source ids with a sync
in flight; `sync_status` is the upserted status table.  The provider sync
routine dispatched by `syncSource` is a parameter `run` returning the
(possibly partially written) store together with the thrown error message,
if any — `none` models normal completion. -/

/-- A source-configuration record (owned by the external store, read here). -/
structure Source where
  id : Nat
  type : String
  name : String := ""
  url : String := ""
  username : String := ""
  password : String := ""
  enabled : Bool := true
deriving DecidableEq, Repr, Inhabited

/-- A row of the `sync_status` table (`type` is the scope column, always
`'all'` here), unique per `(source_id, type)`. -/
structure SyncStatusRow where
  source_id : Nat
  type : String
  last_sync : Nat
  status : String
  error : Option String
deriving DecidableEq, Repr, Inhabited

/-- The whole mutable server state touched by the orchestrator. -/
structure ServerState where
  activeSyncs : List Nat := []
  syncStatus : List SyncStatusRow := []
  db : DbState := {}
deriving DecidableEq, Repr, Inhabited

/-- `ON CONFLICT(source_id, type) DO UPDATE SET last_sync, status, error`. -/
def mergeSyncStatusRow (new old : SyncStatusRow) : SyncStatusRow :=
  { old with
    last_sync := new.last_sync
    status := new.status
    error := new.error }

/-- The conflict key of the `sync_status` table: `(source_id, type)`. -/
def statusKey (r : SyncStatusRow) : Nat × String :=
  (r.source_id, r.type)

/-- The row-list effect of `SyncService.updateSyncStatus`. -/
def syncStatusUpsert (sourceId : Nat) (type : String) (now : Nat) (status : String)
    (error : Option String) (rows : List SyncStatusRow) : List SyncStatusRow :=
  upsertBy statusKey mergeSyncStatusRow
    { source_id := sourceId, type := type, last_sync := now, status := status, error := error }
    rows

/-- `SyncService.updateSyncStatus`: upsert of the status row. -/
def updateSyncStatus (sourceId : Nat) (type : String) (now : Nat) (status : String)
    (error : Option String) (st : ServerState) : ServerState :=
  { st with syncStatus := syncStatusUpsert sourceId type now status error st.syncStatus }

/-- The `(status, error)` pair of a source's `scope = 'all'` status row, when
present. -/
def statusRows (rows : List SyncStatusRow) (sourceId : Nat) : Option (String × Option String) :=
  (rows.find? (fun r => decide (statusKey r = (sourceId, "all")))).map
    (fun r => (r.status, r.error))

/-- Observation: the `(status, error)` pair of the source's `scope = 'all'`
status row, when present. -/
def statusOf (st : ServerState) (sourceId : Nat) : Option (String × Option String) :=
  statusRows st.syncStatus sourceId

/-- `SyncService.syncSource(sourceId)`: guard on `activeSyncs`, resolve the
source, skip disabled sources, mark `syncing`, dispatch the per-type routine,
record `success`/`error` (catching, not re-throwing, any error), and always
remove the id from `activeSyncs` (`finally`). -/
def syncSource (find : Nat → Option Source)
    (run : Source → DbState → DbState × Option String)
    (now : Nat) (sourceId : Nat) (st : ServerState) : ServerState :=
  if sourceId ∈ st.activeSyncs then st
  else
    let st1 : ServerState := { st with activeSyncs := sourceId :: st.activeSyncs }
    let st2 : ServerState :=
      match find sourceId with
      | none =>
        updateSyncStatus sourceId "all" now "error"
          (some ("Source " ++ toString sourceId ++ " not found")) st1
      | some source =>
        if source.enabled = false then st1
        else
          let stS := updateSyncStatus sourceId "all" now "syncing" none st1
          match run source stS.db with
          | (db2, none) => updateSyncStatus sourceId "all" now "success" none { stS with db := db2 }
          | (db2, some m) => updateSyncStatus sourceId "all" now "error" (some m) { stS with db := db2 }
    { st2 with activeSyncs := st2.activeSyncs.erase sourceId }

/-- `SyncService.syncAll`: synchronize every enabled source sequentially. -/
def syncAll (find : Nat → Option Source)
    (run : Source → DbState → DbState × Option String)
    (now : Nat) (allSources : List Source) (st : ServerState) : ServerState :=
  allSources.foldl
    (fun acc source => if source.enabled then syncSource find run now source.id acc else acc) st

/-- The upstream fetches performed by one Xtream sync, each either a parsed
payload or a thrown error message.  `epg` combines `getXmltvUrl` and the
XMLTV fetch-and-parse of `syncEpgFromUrl` (both inside the same `try`). -/
structure XtreamFetch where
  liveCategories : Except String (List RawCategory)
  liveStreams : Except String (List RawItem)
  vodCategories : Except String (List RawCategory)
  vodStreams : Except String (List RawItem)
  seriesCategories : Except String (List RawCategory)
  series : Except String (List RawItem)
  epg : Except String (List EpgChannel × List Programme)
deriving Repr

/-- `SyncService.syncXtream`: the six catalog steps in fixed order, each
aborting the sync with its error; then the EPG step inside `try/catch`,
whose failure is logged and swallowed. -/
def syncXtream (f : XtreamFetch) (sourceId : Nat) (db : DbState) : DbState × Option String :=
  match f.liveCategories with
  | .error m => (db, some m)
  | .ok liveCats =>
    let db := { db with categories := saveCategories sourceId "live" liveCats db.categories }
    match f.liveStreams with
    | .error m => (db, some m)
    | .ok liveStreams =>
      let db := { db with playlistItems := saveStreams sourceId "live" liveStreams db.playlistItems }
      match f.vodCategories with
      | .error m => (db, some m)
      | .ok vodCats =>
        let db := { db with categories := saveCategories sourceId "movie" vodCats db.categories }
        match f.vodStreams with
        | .error m => (db, some m)
        | .ok vodStreams =>
          let db := { db with playlistItems := saveStreams sourceId "movie" vodStreams db.playlistItems }
          match f.seriesCategories with
          | .error m => (db, some m)
          | .ok seriesCats =>
            let db := { db with categories := saveCategories sourceId "series" seriesCats db.categories }
            match f.series with
            | .error m => (db, some m)
            | .ok seriesItems =>
              let db := { db with playlistItems := saveStreams sourceId "series" seriesItems db.playlistItems }
              match f.epg with
              | .error _ => (db, none)
              | .ok (chs, progs) => (syncEpgFromUrl sourceId chs progs db, none)

end NodecastTV


namespace NodecastTV

/-! ## Lemmas about status upserts and `syncSource` -/

/-- `find?` commutes with mapping a key-preserving row transformation. -/
theorem find?_map_of_key_preserving {ρ κ : Type} [DecidableEq κ]
    (key : ρ → κ) (g : ρ → ρ) (k : κ) (hg : ∀ r, key (g r) = key r) :
    ∀ (tbl : List ρ),
      (tbl.map g).find? (fun r => decide (key r = k))
        = (tbl.find? (fun r => decide (key r = k))).map g := by
  intro tbl
  induction tbl with
  | nil => simp
  | cons t ts ih =>
    by_cases ht : key t = k
    · simp [List.find?_cons, hg, ht]
    · simp [List.find?_cons, hg, ht, ih]

/-- After an upsert, looking up the upserted key finds the merged (or the
fresh) row. -/
theorem find?_upsertBy_self {ρ κ : Type} [DecidableEq κ]
    (key : ρ → κ) (merge : ρ → ρ → ρ) (row : ρ) (tbl : List ρ) (k : κ)
    (hkey : key row = k) (hmerge : ∀ r, key (merge row r) = key r) :
    (upsertBy key merge row tbl).find? (fun r => decide (key r = k))
      = some ((tbl.find? (fun r => decide (key r = k))).elim row (merge row)) := by
  subst hkey
  unfold upsertBy
  cases hany : tbl.any (fun r => decide (key r = key row)) with
  | true =>
    simp only [hany, if_true]
    have hg : ∀ r, key (if key r = key row then merge row r else r) = key r := by
      intro r
      by_cases h : key r = key row
      · simp [h, hmerge]
      · simp [h]
    rw [find?_map_of_key_preserving key _ (key row) hg tbl]
    cases hf : tbl.find? (fun r => decide (key r = key row)) with
    | none =>
      exfalso
      rcases List.any_eq_true.mp hany with ⟨r0, hr0, hp⟩
      exact absurd hp (by simpa using List.find?_eq_none.mp hf r0 hr0)
    | some r1 =>
      have hkey1 : key r1 = key row := by
        have := List.find?_some hf
        simpa using this
      simp [hkey1]
  | false =>
    simp only [hany, Bool.false_eq_true, if_false]
    have hnone : tbl.find? (fun r => decide (key r = key row)) = none := by
      rw [List.find?_eq_none]
      intro x hx
      have := List.any_eq_false.mp hany x hx
      simpa using this
    rw [List.find?_append, hnone]
    simp

/-- An upsert leaves lookups of every other key unchanged. -/
theorem find?_upsertBy_ne {ρ κ : Type} [DecidableEq κ]
    (key : ρ → κ) (merge : ρ → ρ → ρ) (row : ρ) (tbl : List ρ) (k : κ)
    (hk : k ≠ key row) (hmerge : ∀ r, key (merge row r) = key r) :
    (upsertBy key merge row tbl).find? (fun r => decide (key r = k))
      = tbl.find? (fun r => decide (key r = k)) := by
  unfold upsertBy
  cases hany : tbl.any (fun r => decide (key r = key row)) with
  | true =>
    simp only [hany, if_true]
    have hg : ∀ r, key (if key r = key row then merge row r else r) = key r := by
      intro r
      by_cases h : key r = key row
      · simp [h, hmerge]
      · simp [h]
    rw [find?_map_of_key_preserving key _ k hg tbl]
    cases hf : tbl.find? (fun r => decide (key r = k)) with
    | none => simp
    | some r1 =>
      have hkey1 : key r1 = k := by
        have := List.find?_some hf
        simpa using this
      have hne : ¬(key r1 = key row) := by
        rw [hkey1]
        exact hk
      show some (if key r1 = key row then merge row r1 else r1) = some r1
      rw [if_neg hne]
  | false =>
    simp only [hany, Bool.false_eq_true, if_false]
    rw [List.find?_append]
    cases hf : tbl.find? (fun r => decide (key r = k)) with
    | none =>
      have hne : ¬(key row = k) := fun hc => hk hc.symm
      simp [hne]
    | some r1 => simp

/-- Reading back the status just written by a status upsert. -/
theorem statusRows_upsert_self (sourceId : Nat) (now : Nat) (status : String)
    (error : Option String) (rows : List SyncStatusRow) :
    statusRows (syncStatusUpsert sourceId "all" now status error rows) sourceId
      = some (status, error) := by
  unfold statusRows syncStatusUpsert
  rw [find?_upsertBy_self statusKey mergeSyncStatusRow
        { source_id := sourceId, type := "all", last_sync := now, status := status, error := error }
        rows (sourceId, "all") rfl (fun r => rfl)]
  cases rows.find? (fun r => decide (statusKey r = (sourceId, "all"))) <;>
    simp [mergeSyncStatusRow]

/-- A status upsert for one source does not change another source's status
row. -/
theorem statusRows_upsert_ne (sourceId : Nat) (type : String) (now : Nat)
    (status : String) (error : Option String) (rows : List SyncStatusRow) (sid : Nat)
    (h : sid ≠ sourceId) :
    statusRows (syncStatusUpsert sourceId type now status error rows) sid
      = statusRows rows sid := by
  unfold statusRows syncStatusUpsert
  rw [find?_upsertBy_ne statusKey mergeSyncStatusRow
        { source_id := sourceId, type := type, last_sync := now, status := status, error := error }
        rows (sid, "all") (fun hc => h (congrArg Prod.fst hc)) (fun r => rfl)]

end NodecastTV

namespace NodecastTV

/-- `syncSource` always leaves the active-sync set as it found it: the guard
branch does not touch it, and every executing branch removes in its
`finally`-equivalent cleanup the id it added on entry. -/
theorem syncSource_activeSyncs (find : Nat → Option Source)
    (run : Source → DbState → DbState × Option String)
    (now sourceId : Nat) (st : ServerState) :
    (syncSource find run now sourceId st).activeSyncs = st.activeSyncs := by
  unfold syncSource
  by_cases hact : sourceId ∈ st.activeSyncs
  · rw [if_pos hact]
  · rw [if_neg hact]
    cases hfind : find sourceId with
    | none => simp [updateSyncStatus]
    | some source =>
      by_cases hen : source.enabled = false
      · simp [hen]
      · simp only [hen, if_false]
        cases hr : run source st.db with
        | mk db2 err =>
          cases err <;> simp [updateSyncStatus, hr]

/-- The status recorded by a full (unguarded, resolved, enabled) execution of
`syncSource`: `success` when the dispatched routine completes, `error m` when
it throws `m`, judged on the store as of dispatch. -/
theorem syncSource_statusOf_run (find : Nat → Option Source)
    (run : Source → DbState → DbState × Option String)
    (now sourceId : Nat) (st : ServerState) (src : Source)
    (hact : sourceId ∉ st.activeSyncs) (hfind : find sourceId = some src)
    (hen : src.enabled = true) :
    statusOf (syncSource find run now sourceId st) sourceId
      = some (((run src st.db).2).elim ("success", none) (fun m => ("error", some m))) := by
  unfold syncSource
  rw [if_neg hact]
  simp only [hfind]
  rw [if_neg (by simp [hen] : ¬src.enabled = false)]
  simp only [statusOf, updateSyncStatus]
  cases hr : run src st.db with
  | mk db2 err =>
    cases err with
    | none => simp [hr, statusRows_upsert_self]
    | some m => simp [hr, statusRows_upsert_self]

/-- `syncSource` for one source never touches another source's status row. -/
theorem syncSource_statusOf_ne (find : Nat → Option Source)
    (run : Source → DbState → DbState × Option String)
    (now sourceId : Nat) (st : ServerState) (sid : Nat) (h : sid ≠ sourceId) :
    statusOf (syncSource find run now sourceId st) sid = statusOf st sid := by
  unfold syncSource
  by_cases hact : sourceId ∈ st.activeSyncs
  · rw [if_pos hact]
  · rw [if_neg hact]
    cases hfind : find sourceId with
    | none => simp [statusOf, updateSyncStatus, statusRows_upsert_ne _ _ _ _ _ _ _ h]
    | some source =>
      by_cases hen : source.enabled = false
      · simp [hen, statusOf]
      · simp only [hen, if_false]
        cases hr : run source st.db with
        | mk db2 err =>
          cases err with
          | none =>
            simp [hr, statusOf, updateSyncStatus, statusRows_upsert_ne _ _ _ _ _ _ _ h]
          | some m =>
            simp [hr, statusOf, updateSyncStatus, statusRows_upsert_ne _ _ _ _ _ _ _ h]

end NodecastTV

namespace NodecastTV

/-- C1.  If a sync for `sourceId` is already in flight (the id is in the
in-memory active-sync set), a second `syncSource(sourceId)` invocation is a
non-error no-op: it returns the state entirely unchanged — in particular it
writes nothing to `SyncStatus` and dispatches no second sync execution, so at
most one sync execution per source is ever active. -/
theorem c1_syncSource_second_invocation_noop
    (find : Nat → Option Source) (run : Source → DbState → DbState × Option String)
    (now sourceId : Nat) (st : ServerState)
    (h : sourceId ∈ st.activeSyncs) :
    syncSource find run now sourceId st = st := by
  unfold syncSource
  rw [if_pos h]

theorem c1_syncSource_second_invocation_noop_witness :
    (5 : Nat) ∈ ({ activeSyncs := [5] } : ServerState).activeSyncs
    ∧ syncSource (fun _ => none) (fun _ db => (db, none)) 0 5 { activeSyncs := [5] }
        = { activeSyncs := [5] } :=
  ⟨by decide,
   c1_syncSource_second_invocation_noop (fun _ => none) (fun _ db => (db, none)) 0 5
     { activeSyncs := [5] } (by decide)⟩

/-- C10.  `syncSource` on an unresolvable source id does not throw to its
caller: the internal `Source <id> not found` error is caught, a `SyncStatus`
row is upserted with status `error` and a message naming the missing source,
and the id is removed from the active-sync set. -/
theorem c10_syncSource_missing_source
    (find : Nat → Option Source) (run : Source → DbState → DbState × Option String)
    (now sourceId : Nat) (st : ServerState)
    (hact : sourceId ∉ st.activeSyncs) (hfind : find sourceId = none) :
    statusOf (syncSource find run now sourceId st) sourceId
      = some ("error", some ("Source " ++ toString sourceId ++ " not found"))
    ∧ (syncSource find run now sourceId st).activeSyncs = st.activeSyncs := by
  refine ⟨?_, syncSource_activeSyncs find run now sourceId st⟩
  unfold syncSource
  rw [if_neg hact]
  simp only [hfind]
  simp [statusOf, updateSyncStatus, statusRows_upsert_self]

theorem c10_syncSource_missing_source_witness :
    statusOf (syncSource (fun _ => none) (fun _ db => (db, none)) 0 3 {}) 3
      = some ("error", some ("Source " ++ toString 3 ++ " not found"))
    ∧ (syncSource (fun _ => none) (fun _ db => (db, none)) 0 3 {}).activeSyncs
      = ({} : ServerState).activeSyncs :=
  c10_syncSource_missing_source (fun _ => none) (fun _ db => (db, none)) 0 3 {}
    (by decide) rfl

end NodecastTV

namespace NodecastTV

/-- C6.  During an Xtream sync, a failure of the EPG (XMLTV) step is
swallowed: when the six catalog steps succeed, `syncXtream` throws nothing —
whatever the EPG fetch did — and `syncSource` records `SyncStatus.status =
success`; conversely any error `syncXtream` does throw comes from one of the
six catalog steps, and makes the sync record status `error`. -/
theorem c6_xtream_epg_best_effort
    (f : XtreamFetch) (find : Nat → Option Source) (now : Nat) (st : ServerState) (src : Source)
    (hact : src.id ∉ st.activeSyncs) (hfind : find src.id = some src) (hen : src.enabled = true) :
    (((∃ a, f.liveCategories = .ok a) ∧ (∃ a, f.liveStreams = .ok a)
      ∧ (∃ a, f.vodCategories = .ok a) ∧ (∃ a, f.vodStreams = .ok a)
      ∧ (∃ a, f.seriesCategories = .ok a) ∧ (∃ a, f.series = .ok a)) →
      (syncXtream f src.id st.db).2 = none
      ∧ statusOf (syncSource find (fun s db => syncXtream f s.id db) now src.id st) src.id
          = some ("success", none))
    ∧ (∀ m, (syncXtream f src.id st.db).2 = some m →
        (f.liveCategories = .error m ∨ f.liveStreams = .error m ∨ f.vodCategories = .error m
          ∨ f.vodStreams = .error m ∨ f.seriesCategories = .error m ∨ f.series = .error m)
        ∧ statusOf (syncSource find (fun s db => syncXtream f s.id db) now src.id st) src.id
            = some ("error", some m)) := by
  have hstat := syncSource_statusOf_run find (fun s db => syncXtream f s.id db)
    now src.id st src hact hfind hen
  constructor
  · rintro ⟨⟨a1, h1⟩, ⟨a2, h2⟩, ⟨a3, h3⟩, ⟨a4, h4⟩, ⟨a5, h5⟩, ⟨a6, h6⟩⟩
    have hsnd : (syncXtream f src.id st.db).2 = none := by
      simp only [syncXtream, h1, h2, h3, h4, h5, h6]
      cases hepg : f.epg with
      | error e => rfl
      | ok p => cases p with | mk chs progs => rfl
    refine ⟨hsnd, ?_⟩
    rw [hstat, hsnd]
    rfl
  · intro m hm
    have hstatus : statusOf (syncSource find (fun s db => syncXtream f s.id db) now src.id st)
        src.id = some ("error", some m) := by
      rw [hstat, hm]
      rfl
    refine ⟨?_, hstatus⟩
    cases hc1 : f.liveCategories with
    | error m1 =>
      have h' : some m1 = some m := by simpa [syncXtream, hc1] using hm
      obtain rfl : m1 = m := Option.some.inj h'
      exact Or.inl rfl
    | ok a1 =>
      cases hc2 : f.liveStreams with
      | error m2 =>
        have h' : some m2 = some m := by simpa [syncXtream, hc1, hc2] using hm
        obtain rfl : m2 = m := Option.some.inj h'
        exact Or.inr (Or.inl rfl)
      | ok a2 =>
        cases hc3 : f.vodCategories with
        | error m3 =>
          have h' : some m3 = some m := by simpa [syncXtream, hc1, hc2, hc3] using hm
          obtain rfl : m3 = m := Option.some.inj h'
          exact Or.inr (Or.inr (Or.inl rfl))
        | ok a3 =>
          cases hc4 : f.vodStreams with
          | error m4 =>
            have h' : some m4 = some m := by simpa [syncXtream, hc1, hc2, hc3, hc4] using hm
            obtain rfl : m4 = m := Option.some.inj h'
            exact Or.inr (Or.inr (Or.inr (Or.inl rfl)))
          | ok a4 =>
            cases hc5 : f.seriesCategories with
            | error m5 =>
              have h' : some m5 = some m := by
                simpa [syncXtream, hc1, hc2, hc3, hc4, hc5] using hm
              obtain rfl : m5 = m := Option.some.inj h'
              exact Or.inr (Or.inr (Or.inr (Or.inr (Or.inl rfl))))
            | ok a5 =>
              cases hc6 : f.series with
              | error m6 =>
                have h' : some m6 = some m := by
                  simpa [syncXtream, hc1, hc2, hc3, hc4, hc5, hc6] using hm
                obtain rfl : m6 = m := Option.some.inj h'
                exact Or.inr (Or.inr (Or.inr (Or.inr (Or.inr rfl))))
              | ok a6 =>
                exfalso
                have hnone : (syncXtream f src.id st.db).2 = none := by
                  simp only [syncXtream, hc1, hc2, hc3, hc4, hc5, hc6]
                  cases hepg : f.epg with
                  | error e => rfl
                  | ok p => cases p with | mk chs progs => rfl
                rw [hnone] at hm
                exact Option.noConfusion hm

theorem c6_xtream_epg_best_effort_witness :
    (syncXtream
        { liveCategories := .ok [], liveStreams := .ok [], vodCategories := .ok [],
          vodStreams := .ok [], seriesCategories := .ok [], series := .ok [],
          epg := .error "xmltv down" }
        1 ({} : ServerState).db).2 = none
    ∧ statusOf
        (syncSource (fun sid => if sid == 1 then some { id := 1, type := "xtream" } else none)
          (fun s db => syncXtream
            { liveCategories := .ok [], liveStreams := .ok [], vodCategories := .ok [],
              vodStreams := .ok [], seriesCategories := .ok [], series := .ok [],
              epg := .error "xmltv down" } s.id db)
          0 (1 : Nat) {})
        (1 : Nat)
      = some ("success", none) :=
  (c6_xtream_epg_best_effort
      { liveCategories := .ok [], liveStreams := .ok [], vodCategories := .ok [],
        vodStreams := .ok [], seriesCategories := .ok [], series := .ok [],
        epg := .error "xmltv down" }
      (fun sid => if sid == 1 then some { id := 1, type := "xtream" } else none)
      0 {} { id := 1, type := "xtream" } (by decide) rfl rfl).1
    ⟨⟨[], rfl⟩, ⟨[], rfl⟩, ⟨[], rfl⟩, ⟨[], rfl⟩, ⟨[], rfl⟩, ⟨[], rfl⟩⟩

end NodecastTV

namespace NodecastTV

/-- C7.  When the dispatched sync routine throws, `syncSource` records
`SyncStatus.status = error` with the message and does not re-throw (it is a
total function into `ServerState`); the source id is always removed from the
active-sync set on completion, success or error; and in `syncAll` a failure
on one source does not abort the loop — the following source still syncs and
records `success` while the failed one keeps its `error` record. -/
theorem c7_syncSource_error_handling_and_loop
    (find : Nat → Option Source) (run : Source → DbState → DbState × Option String)
    (now : Nat) :
    (∀ (sourceId : Nat) (st : ServerState),
      (syncSource find run now sourceId st).activeSyncs = st.activeSyncs)
    ∧ (∀ (sourceId : Nat) (st : ServerState) (src : Source) (m : String),
        sourceId ∉ st.activeSyncs → find sourceId = some src → src.enabled = true →
        (run src st.db).2 = some m →
        statusOf (syncSource find run now sourceId st) sourceId = some ("error", some m))
    ∧ (∀ (st : ServerState) (s1 s2 : Source) (m : String),
        s1.id ≠ s2.id → s1.enabled = true → s2.enabled = true →
        find s1.id = some s1 → find s2.id = some s2 →
        s1.id ∉ st.activeSyncs → s2.id ∉ st.activeSyncs →
        (run s1 st.db).2 = some m → (∀ db, (run s2 db).2 = none) →
        statusOf (syncAll find run now [s1, s2] st) s1.id = some ("error", some m)
        ∧ statusOf (syncAll find run now [s1, s2] st) s2.id = some ("success", none)) := by
  refine ⟨fun sourceId st => syncSource_activeSyncs find run now sourceId st, ?_, ?_⟩
  · intro sourceId st src m hact hfind hen hrun
    rw [syncSource_statusOf_run find run now sourceId st src hact hfind hen, hrun]
    rfl
  · intro st s1 s2 m hne hen1 hen2 hf1 hf2 hact1 hact2 hrun1 hrun2
    have hAll : syncAll find run now [s1, s2] st
        = syncSource find run now s2.id (syncSource find run now s1.id st) := by
      simp [syncAll, hen1, hen2]
    have h1 : statusOf (syncSource find run now s1.id st) s1.id = some ("error", some m) := by
      rw [syncSource_statusOf_run find run now s1.id st s1 hact1 hf1 hen1, hrun1]
      rfl
    have hact2' : s2.id ∉ (syncSource find run now s1.id st).activeSyncs := by
      rw [syncSource_activeSyncs]
      exact hact2
    have h2 : statusOf (syncSource find run now s2.id (syncSource find run now s1.id st)) s2.id
        = some ("success", none) := by
      rw [syncSource_statusOf_run find run now s2.id _ s2 hact2' hf2 hen2, hrun2]
      rfl
    have h1' : statusOf (syncSource find run now s2.id (syncSource find run now s1.id st)) s1.id
        = some ("error", some m) := by
      rw [syncSource_statusOf_ne find run now s2.id _ s1.id hne, h1]
    rw [hAll]
    exact ⟨h1', h2⟩

theorem c7_syncSource_error_handling_and_loop_witness :
    statusOf
        (syncAll
          (fun sid => if sid == 1 then some { id := 1, type := "m3u", enabled := true }
            else if sid == 2 then some { id := 2, type := "epg", enabled := true } else none)
          (fun s db => if s.id == 1 then (db, some "boom") else (db, none))
          0 [{ id := 1, type := "m3u", enabled := true }, { id := 2, type := "epg", enabled := true }] {})
        1
      = some ("error", some "boom")
    ∧ statusOf
        (syncAll
          (fun sid => if sid == 1 then some { id := 1, type := "m3u", enabled := true }
            else if sid == 2 then some { id := 2, type := "epg", enabled := true } else none)
          (fun s db => if s.id == 1 then (db, some "boom") else (db, none))
          0 [{ id := 1, type := "m3u", enabled := true }, { id := 2, type := "epg", enabled := true }] {})
        2
      = some ("success", none) :=
  (c7_syncSource_error_handling_and_loop
      (fun sid => if sid == 1 then some { id := 1, type := "m3u", enabled := true }
        else if sid == 2 then some { id := 2, type := "epg", enabled := true } else none)
      (fun s db => if s.id == 1 then (db, some "boom") else (db, none))
      0).2.2
    {} { id := 1, type := "m3u", enabled := true } { id := 2, type := "epg", enabled := true }
    "boom" (by decide) rfl rfl rfl rfl (by decide) (by decide) rfl (fun db => rfl)

end NodecastTV

namespace NodecastTV

/-- C5.  Composite-id round-trip, for every `(sourceId, type)`: items saved
by `saveStreams` and read back through `getStreamsFromDb` return exactly the
identifying fields that the type-specific mapping `mapStreamFields type`
extracted from the vendor-specific raw payload — the id and category id as
their `String(...)` image (the columns are written through `String(itemId)` /
`String(catId)`), the name verbatim, and for series additionally `series_id`.
The three mappings are spelled out (`live`/`movie` ids from `stream_id`,
`series` ids from `series_id` with icon from `cover`, year from
`releaseDate`, added from `last_modified`).  In the spec's scenario
(`liveStreams = [{stream_id:10, name:"CNN", category_id:"1"}]`) the read
returns exactly one live item with `name = "CNN"`, `category_id = "1"` and
stream id `String(10) = "10"`. -/
theorem c5_composite_id_roundtrip
    (sourceId : Nat) (type : String) (items : List RawItem)
    (hids : (items.map (streamRowOf sourceId type)).Pairwise (fun a b => a.id ≠ b.id)) :
    (getStreamsFromDb sourceId type none false (saveStreams sourceId type items [])).map
        (fun r => (r.stream_id, r.series_id, r.name, r.category_id))
      = items.map (fun it =>
          (jsString (mapStreamFields type it).itemId,
           if type == "series" then some (jsString (mapStreamFields type it).itemId) else none,
           (mapStreamFields type it).name,
           Value.str (jsString (mapStreamFields type it).catId)))
    ∧ (∀ it : RawItem, mapStreamFields "live" it
        = { itemId := it.stream_id, name := it.name, catId := it.category_id,
            icon := it.stream_icon, added := it.added })
    ∧ (∀ it : RawItem, mapStreamFields "movie" it
        = { itemId := it.stream_id, name := it.name, catId := it.category_id,
            icon := it.stream_icon, container := it.container_extension,
            rating := it.rating, added := it.added })
    ∧ (∀ it : RawItem, mapStreamFields "series" it
        = { itemId := it.series_id, name := it.name, catId := it.category_id,
            icon := it.cover, rating := it.rating, year := it.releaseDate,
            added := it.last_modified })
    ∧ getStreamsFromDb 1 "live" none false
        (saveStreams 1 "live" [{ stream_id := .num 10, name := .str "CNN", category_id := .str "1" }] [])
      = [{ data := .raw { stream_id := .num 10, name := .str "CNN", category_id := .str "1" }
           stream_id := jsString (.num 10)
           series_id := none
           name := .str "CNN"
           stream_icon := .undef
           cover := .undef
           added := .undef
           rating := .null
           container_extension := .undef
           category_id := .str (jsString (.str "1")) }] := by
  refine ⟨?_, fun it => rfl, fun it => rfl, fun it => rfl, ?_⟩
  · rw [saveStreams_empty_of_distinct sourceId type items hids]
    simp only [getStreamsFromDb]
    rw [List.filter_eq_self.mpr ?mem]
    case mem =>
      intro r hr
      rcases List.mem_map.mp hr with ⟨it, _, rfl⟩
      simp [streamRowOf]
    rw [List.map_map, List.map_map]
    apply List.map_congr_left
    intro it _
    simp [streamRowOf]
  · decide

end NodecastTV

namespace NodecastTV

theorem c5_composite_id_roundtrip_witness :
    (getStreamsFromDb 1 "series" none false
        (saveStreams 1 "series"
          [{ series_id := .num 7, name := .str "Lost", category_id := .str "2",
             cover := .str "c.png" }] [])).map
        (fun r => (r.stream_id, r.series_id, r.name, r.category_id))
      = ([{ series_id := .num 7, name := .str "Lost", category_id := .str "2",
            cover := .str "c.png" }] : List RawItem).map
          (fun it =>
            (jsString (mapStreamFields "series" it).itemId,
             if "series" == "series" then some (jsString (mapStreamFields "series" it).itemId)
             else none,
             (mapStreamFields "series" it).name,
             Value.str (jsString (mapStreamFields "series" it).catId))) :=
  (c5_composite_id_roundtrip 1 "series"
    [{ series_id := .num 7, name := .str "Lost", category_id := .str "2",
       cover := .str "c.png" }] (by decide)).1

end NodecastTV

namespace NodecastTV

/-! ## Stream, image and stream-URL endpoints (`src/server/routes/proxy.js`)

The HTTP layer is abstracted to the decision each handler takes: what status
it replies, what body/headers it sends, or that it relays or redirects.  The
upstream requests are abstracted to their outcome (`Except`): `.error`
models a connection failure before any response — i.e. before any header or
byte reaches the client. -/

/-- The upstream response of a raw relay: mirrored status code and headers
(the body is piped through unchanged). -/
structure UpstreamResp where
  statusCode : Nat
  headers : List (String × String)
deriving DecidableEq, Repr

/-- What a proxy handler does with the client response. -/
inductive ProxyOutcome where
  | reply (status : Nat) (body : Option String)
  | manifest (body : String)
  | relay (status : Nat) (headers : List (String × String))
  | redirect (loc : String)
deriving DecidableEq, Repr

/-- `rewriteM3u8(m3u8Url, baseUrl)`: fetch the manifest (here: its outcome),
rewrite it, and return `null` (modelled `none`) when the fetch or rewrite
throws — including a non-ok upstream status, which the function raises
itself. -/
def rewriteM3u8 (m3u8Url baseUrl : String) (fetched : Except String String) : Option String :=
  match fetched with
  | .error _ => none
  | .ok content => some (rewriteM3u8Content m3u8Url baseUrl content)

/-- The native passthrough of `GET /stream`: mirror the upstream status and
headers and pipe the body; if the upstream request errors before any
response, reply 502 (headers not yet sent). -/
def nativeStreamRelay (upstream : Except String UpstreamResp) : ProxyOutcome :=
  match upstream with
  | .ok r => .relay r.statusCode r.headers
  | .error _ => .reply 502 none

/-- `GET /stream?url=`: 400 without `url`; manifest URLs (containing
`.m3u8`) are fetched and rewritten, falling through to the raw relay when
the rewrite returns `null`; other URLs are relayed directly. -/
def streamProxyHandler (urlQ : Option String) (proxyBase : String)
    (manifestFetch : Except String String) (upstream : Except String UpstreamResp) :
    ProxyOutcome :=
  match urlQ with
  | none => .reply 400 (some "URL required")
  | some url =>
    if jsIncludes url ".m3u8" then
      match rewriteM3u8 url proxyBase manifestFetch with
      | some m => .manifest m
      | none => nativeStreamRelay upstream
    else nativeStreamRelay upstream

/-- The header rewrite of `GET /image`: strip the upstream CORS header,
inject a permissive one plus a 24-hour cache directive. -/
def imageHeaderRewrite (hs : List (String × String)) : List (String × String) :=
  (hs.filter (fun h => !(h.1 == "access-control-allow-origin")))
    ++ [("Access-Control-Allow-Origin", "*"), ("Cache-Control", "public, max-age=86400")]

/-- `GET /image?url=`: 400 without `url`; non-HTTP input is treated as
already local (redirect); otherwise relay with rewritten headers — and on an
upstream request error reply **404**. -/
def imageProxyHandler (urlQ : Option String) (upstream : Except String UpstreamResp) :
    ProxyOutcome :=
  match urlQ with
  | none => .reply 400 (some "URL required")
  | some url =>
    if !(jsStartsWith url "http") then .redirect url
    else
      match upstream with
      | .error _ => .reply 404 none
      | .ok r => .relay r.statusCode (imageHeaderRewrite r.headers)

/-- `source.url.replace(/\/$/, '')`: remove one trailing slash. -/
def stripTrailingSlash (s : String) : String :=
  match s.data.getLast? with
  | some c => if c = Char.ofNat 47 then ⟨s.data.dropLast⟩ else s
  | none => s

/-- `GET /xtream/:sourceId/stream/:streamId/:type?container=`: build the
direct Xtream stream URL `base/{live|movie|series}/{username}/{password}/
{streamId}.{container}`; 404 for a missing or non-xtream source, 400 for any
other type value. -/
def xtreamStreamUrlHandler (source : Option Source) (streamId : String) (typeParam : String)
    (container : Option String) : ProxyOutcome :=
  match source with
  | none => .reply 404 (some "Xtream source not found")
  | some s =>
    if !(s.type == "xtream") then .reply 404 (some "Xtream source not found")
    else
      let type := if typeParam == "" then "live" else typeParam
      let c := match container with
        | some c0 => if c0 == "" then "m3u8" else c0
        | none => "m3u8"
      let baseUrl := stripTrailingSlash s.url
      if type == "live" then
        .reply 200 (some (baseUrl ++ "/live/" ++ s.username ++ "/" ++ s.password ++ "/"
          ++ streamId ++ "." ++ c))
      else if type == "movie" then
        .reply 200 (some (baseUrl ++ "/movie/" ++ s.username ++ "/" ++ s.password ++ "/"
          ++ streamId ++ "." ++ c))
      else if type == "series" then
        .reply 200 (some (baseUrl ++ "/series/" ++ s.username ++ "/" ++ s.password ++ "/"
          ++ streamId ++ "." ++ c))
      else .reply 400 (some "Invalid stream type")

end NodecastTV

namespace NodecastTV

/-- C8 counterexample.  The claim says every read/proxy endpoint signals an
upstream fetch failure with HTTP 502, in particular the image proxy; but the
image proxy's error handler replies **404**, not 502. -/
theorem c8_image_proxy_counterexample :
    imageProxyHandler (some "http://h/logo.png") (.error "ECONNREFUSED") = .reply 404 none
    ∧ (404 : Nat) ≠ 502 := by
  constructor
  · rfl
  · decide

/-- C8 (amended).  An upstream connection failure before any bytes are sent
makes the raw stream relay reply 502 — both for plain media URLs and for
manifest URLs whose manifest fetch also failed (the rewrite returns `null`
and falls through to the raw relay) — while the image proxy replies 404 (not
502) on an upstream fetch failure. -/
theorem c8_upstream_failure_status_codes :
    (∀ (u pb e : String) (mf : Except String String),
        jsIncludes u ".m3u8" = false →
        streamProxyHandler (some u) pb mf (.error e) = .reply 502 none)
    ∧ (∀ (u pb e e2 : String),
        streamProxyHandler (some u) pb (.error e2) (.error e) = .reply 502 none)
    ∧ (∀ (u e : String), jsStartsWith u "http" = true →
        imageProxyHandler (some u) (.error e) = .reply 404 none) := by
  refine ⟨?_, ?_, ?_⟩
  · intro u pb e mf h
    simp [streamProxyHandler, h, nativeStreamRelay]
  · intro u pb e e2
    by_cases h : jsIncludes u ".m3u8" = true
    · simp [streamProxyHandler, h, rewriteM3u8, nativeStreamRelay]
    · simp only [Bool.not_eq_true] at h
      simp [streamProxyHandler, h, nativeStreamRelay]
  · intro u e h
    simp [imageProxyHandler, h]

theorem c8_upstream_failure_status_codes_witness :
    streamProxyHandler (some "http://h/seg2.ts") "PB" (.ok "") (.error "ECONNRESET")
      = .reply 502 none
    ∧ imageProxyHandler (some "http://h/a.png") (.error "EHOSTUNREACH") = .reply 404 none :=
  ⟨c8_upstream_failure_status_codes.1 "http://h/seg2.ts" "PB" "ECONNRESET" (.ok "") (by decide),
   c8_upstream_failure_status_codes.2.2 "http://h/a.png" "EHOSTUNREACH" (by decide)⟩

/-- C9.  For an Xtream source, the stream-URL endpoint returns the URL
`base/{live|movie|series}/{username}/{password}/{streamId}.{container}`,
with `base` the source URL minus its trailing slash; any other type value
yields 400, and a missing or non-xtream source yields 404. -/
theorem c9_xtream_stream_url
    (s : Source) (streamId container : String) (hx : s.type = "xtream") (hc : container ≠ "") :
    (xtreamStreamUrlHandler (some s) streamId "live" (some container)
        = .reply 200 (some (stripTrailingSlash s.url ++ "/live/" ++ s.username ++ "/"
            ++ s.password ++ "/" ++ streamId ++ "." ++ container)))
    ∧ (xtreamStreamUrlHandler (some s) streamId "movie" (some container)
        = .reply 200 (some (stripTrailingSlash s.url ++ "/movie/" ++ s.username ++ "/"
            ++ s.password ++ "/" ++ streamId ++ "." ++ container)))
    ∧ (xtreamStreamUrlHandler (some s) streamId "series" (some container)
        = .reply 200 (some (stripTrailingSlash s.url ++ "/series/" ++ s.username ++ "/"
            ++ s.password ++ "/" ++ streamId ++ "." ++ container)))
    ∧ (∀ ty, ty ≠ "live" → ty ≠ "movie" → ty ≠ "series" → ty ≠ "" →
        xtreamStreamUrlHandler (some s) streamId ty (some container)
          = .reply 400 (some "Invalid stream type"))
    ∧ (∀ u, stripTrailingSlash (u ++ "/") = u)
    ∧ (∀ sid ty c, xtreamStreamUrlHandler none sid ty c
        = .reply 404 (some "Xtream source not found"))
    ∧ (∀ (s2 : Source) sid ty c, s2.type ≠ "xtream" →
        xtreamStreamUrlHandler (some s2) sid ty c
          = .reply 404 (some "Xtream source not found")) := by
  refine ⟨?_, ?_, ?_, ?_, ?_, ?_, ?_⟩
  · simp [xtreamStreamUrlHandler, hx, hc]
  · simp [xtreamStreamUrlHandler, hx, hc]
  · simp [xtreamStreamUrlHandler, hx, hc]
  · intro ty h1 h2 h3 h4
    simp [xtreamStreamUrlHandler, hx, hc, h1, h2, h3, h4]
  · intro u
    show stripTrailingSlash ⟨u.data ++ [Char.ofNat 47]⟩ = u
    unfold stripTrailingSlash
    rw [List.getLast?_concat]
    simp [List.dropLast_concat]
  · intro sid ty c
    rfl
  · intro s2 sid ty c h
    simp [xtreamStreamUrlHandler, h]

theorem c9_xtream_stream_url_witness :
    xtreamStreamUrlHandler
        (some { id := 1, type := "xtream", url := "http://h/", username := "u", password := "p" })
        "42" "live" (some "ts")
      = .reply 200 (some (stripTrailingSlash "http://h/" ++ "/live/" ++ "u" ++ "/"
          ++ "p" ++ "/" ++ "42" ++ "." ++ "ts")) :=
  (c9_xtream_stream_url
    { id := 1, type := "xtream", url := "http://h/", username := "u", password := "p" }
    "42" "ts" rfl (by decide)).1

/-- C4.  The manifest rewriter leaves comment lines unmodified; it replaces
every other (non-empty, whitespace-free) line by the proxy base plus `?url=`
plus the percent-encoding of the target: the line itself when it begins with
`http` (an absolute reference, used unchanged), otherwise the line resolved
against the manifest's base directory by prefixing it; in particular
`seg1.ts` under base `http://h/path/` yields
`proxyBase?url=http%3A%2F%2Fh%2Fpath%2Fseg1.ts`. -/
theorem c4_manifest_line_rewrite (proxyBase : String) :
    rewriteLine "http://h/path/" proxyBase "seg1.ts"
        = proxyBase ++ "?url=" ++ "http%3A%2F%2Fh%2Fpath%2Fseg1.ts"
    ∧ (∀ base line, jsStartsWith line "#" = true → rewriteLine base proxyBase line = line)
    ∧ (∀ base line, jsStartsWith line "#" = false → line ≠ "" → jsTrim line = line →
        jsStartsWith line "http" = false →
        rewriteLine base proxyBase line
          = proxyBase ++ "?url=" ++ encodeURIComponent (base ++ line))
    ∧ (∀ base line, jsStartsWith line "#" = false → line ≠ "" → jsTrim line = line →
        jsStartsWith line "http" = true →
        rewriteLine base proxyBase line = proxyBase ++ "?url=" ++ encodeURIComponent line) := by
  have hcomment : ∀ base line, jsStartsWith line "#" = true →
      rewriteLine base proxyBase line = line := by
    intro base line h
    unfold rewriteLine
    rw [if_pos (by simp [h])]
  have hrel : ∀ base line, jsStartsWith line "#" = false → line ≠ "" → jsTrim line = line →
      jsStartsWith line "http" = false →
      rewriteLine base proxyBase line
        = proxyBase ++ "?url=" ++ encodeURIComponent (base ++ line) := by
    intro base line h1 h2 h3 h4
    unfold rewriteLine
    rw [if_neg (by simp [h1, h2])]
    rw [h3]
    simp [h4]
  have habs : ∀ base line, jsStartsWith line "#" = false → line ≠ "" → jsTrim line = line →
      jsStartsWith line "http" = true →
      rewriteLine base proxyBase line = proxyBase ++ "?url=" ++ encodeURIComponent line := by
    intro base line h1 h2 h3 h4
    unfold rewriteLine
    rw [if_neg (by simp [h1, h2])]
    rw [h3]
    simp [h4]
  refine ⟨?_, hcomment, hrel, habs⟩
  rw [hrel "http://h/path/" "seg1.ts" (by decide) (by decide) (by decide) (by decide)]
  have henc : encodeURIComponent ("http://h/path/" ++ "seg1.ts")
      = "http%3A%2F%2Fh%2Fpath%2Fseg1.ts" := by decide
  rw [henc]

theorem c4_manifest_line_rewrite_witness :
    rewriteLine "u/" "PB" "x.ts" = "PB" ++ "?url=" ++ encodeURIComponent ("u/" ++ "x.ts") :=
  (c4_manifest_line_rewrite "PB").2.2.1 "u/" "x.ts" (by decide) (by decide) (by decide)
    (by decide)

end NodecastTV

namespace NodecastTV

theorem c2_epg_ingest_idempotent_window_witness :
    (syncEpgFromUrl 1 []
        [{ channelId := "c1", title := "News", start := some 0, stop := some 60 }]
        (syncEpgFromUrl 1 []
          [{ channelId := "c1", title := "News", start := some 0, stop := some 60 }]
          {})).epgPrograms
      = (syncEpgFromUrl 1 []
          [{ channelId := "c1", title := "News", start := some 0, stop := some 60 }]
          {}).epgPrograms
    ∧ ([{ channelId := "c1", title := "News", start := some 0, stop := some 60 }] :
        List Programme).Nodup
    ∧ ((syncEpgFromUrl 1 []
          [{ channelId := "c1", title := "News", start := some 0, stop := some 60 }]
          {}).epgPrograms.filter (fun r => r.source_id == 1)).Nodup :=
  ⟨(c2_epg_ingest_idempotent_window 1 []
      [{ channelId := "c1", title := "News", start := some 0, stop := some 60 }] {} 0).1,
   by decide,
   (c2_epg_ingest_idempotent_window 1 []
      [{ channelId := "c1", title := "News", start := some 0, stop := some 60 }] {} 0).2.2.2
     (by decide)⟩

end NodecastTV
